import Mathlib

set_option maxRecDepth 100000

/-!
Verification of the SchoolSpring job-posting extractor
(src/job_extractor_v6_1.py) against its natural-language specification.

Strings are modelled as lists of Unicode characters (Python 3 strings are
sequences of code points).  Python regular expressions are embedded through
a small backtracking matcher (`reM`) whose alternation / laziness order
follows CPython's `re` engine; every pattern of the source is transcribed
into a regex AST below.
-/

namespace JDX

/-- Strings are lists of characters, as in Python 3. -/
abbrev Str := List Char

/-- Coercion from Lean string literals. -/
def S (s : String) : Str := s.data

/-- Apostrophe character (U+0027). -/
def apos : Char := Char.ofNat 39

/-- Double-quote character (U+0022). -/
def dq : Char := Char.ofNat 34

/-- Newline character. -/
def nlc : Char := Char.ofNat 10

/-- Whitespace test matching Python's `str.strip()` / `\s` for `str`
patterns (ASCII whitespace, NEL, NBSP and the Unicode space separators). -/
def isPyWS (c : Char) : Bool :=
  c = (' ') || c = (Char.ofNat 9) || c = (Char.ofNat 10) || c = (Char.ofNat 11) ||
  c = (Char.ofNat 12) || c = (Char.ofNat 13) ||
  (Char.ofNat 28 ≤ c && c ≤ Char.ofNat 31) ||
  c = (Char.ofNat 0x85) || c = (Char.ofNat 0xa0) || c = (Char.ofNat 0x1680) ||
  (Char.ofNat 0x2000 ≤ c && c ≤ Char.ofNat 0x200a) ||
  c = (Char.ofNat 0x2028) || c = (Char.ofNat 0x2029) || c = (Char.ofNat 0x202f) ||
  c = (Char.ofNat 0x205f) || c = (Char.ofNat 0x3000)

/-- ASCII lower-casing, the fragment of `str.lower()` the source relies on. -/
def lowerC (c : Char) : Char :=
  if ('A') ≤ c ∧ c ≤ ('Z') then Char.ofNat (c.toNat + 32) else c

/-- Embedding of Python `str.lower()` (ASCII fragment). -/
def pylower (s : Str) : Str := s.map lowerC

/-- Embedding of Python `str.strip()` with no arguments. -/
def pystrip (s : Str) : Str :=
  ((s.dropWhile isPyWS).reverse.dropWhile isPyWS).reverse

/-- Prepend a character to the first part of a split result. -/
def consHead (c : Char) : List Str → List Str
  | [] => [[c]]
  | h :: t => (c :: h) :: t

/-- Embedding of Python `str.split(sep)` for a one-character separator
(keeps empty parts, as Python does). -/
def pysplit (c : Char) : Str → List Str
  | [] => [[]]
  | a :: rest => if a = c then [] :: pysplit c rest else consHead a (pysplit c rest)

/-- Fueled worker for `pysplitStr`; the fuel is structural so that the
definition evaluates inside the kernel, and every caller supplies fuel
at least the input length plus one, which never runs out because each
step consumes at least one character. -/
def pysplitStrF (sep : Str) : Nat → Str → List Str
  | 0, _ => [[]]
  | _ + 1, [] => [[]]
  | f + 1, a :: rest =>
    if sep ≠ [] ∧ sep.isPrefixOf (a :: rest) then
      [] :: pysplitStrF sep f (List.drop (sep.length - 1) rest)
    else
      consHead a (pysplitStrF sep f rest)

/-- Embedding of Python `str.split(sep)` for a multi-character separator:
non-overlapping occurrences are found left to right. -/
def pysplitStr (sep s : Str) : List Str := pysplitStrF sep (s.length + 1) s

/-- Fueled worker for `pyreplace` (fuel as in `pysplitStrF`). -/
def pyreplaceF (pat rep : Str) : Nat → Str → Str
  | 0, s => s
  | _ + 1, [] => []
  | f + 1, a :: rest =>
    if pat ≠ [] ∧ pat.isPrefixOf (a :: rest) then
      rep ++ pyreplaceF pat rep f (List.drop (pat.length - 1) rest)
    else
      a :: pyreplaceF pat rep f rest

/-- Embedding of Python `str.replace(pat, rep)`: every non-overlapping
occurrence, scanning left to right. -/
def pyreplace (pat rep s : Str) : Str := pyreplaceF pat rep (s.length + 1) s

/-- Embedding of Python `str.endswith(c)` for a single character. -/
def pyendswith (c : Char) (s : Str) : Bool :=
  match s.reverse with
  | [] => false
  | a :: _ => a = c

/-- Embedding of the Python substring test `needle in hay`. -/
def containsSub (needle hay : Str) : Bool :=
  needle.isPrefixOf hay ||
    match hay with
    | [] => false
    | _ :: t => containsSub needle t

/-- First `some` produced by `f` along the list (models a Python
for-loop that `break`s after its first successful append). -/
def firstSome (f : α → Option β) : List α → Option β
  | [] => none
  | a :: rest =>
    match f a with
    | some b => some b
    | none => firstSome f rest

/-! ## The regex engine

A fueled CPS backtracking matcher.  Alternatives are tried in source
order, `star` is greedy or lazy, `look` is a zero-width lookahead,
`grp` records capture group 1, `eos` is Python's `$` (end of string,
or just before a terminating newline).  The fuel only bounds the
nesting depth of the search; all fuel values passed below are
sufficient for the patterns of the source. -/

inductive RE where
  | eps : RE
  | cls : (Char → Bool) → RE
  | seq : RE → RE → RE
  | alt : RE → RE → RE
  | star : RE → Bool → RE
  | look : RE → RE
  | grp : RE → RE
  | eos : RE

/-- Capture of group 1, when set. -/
abbrev Cap := Option Str

/-- Result of a match: the remaining suffix and the capture. -/
abbrev MRes := Str × Cap

/-- The backtracking matcher core: try `r` at the start of `s` and feed
every successful (suffix, capture) state to the continuation `k`, in
CPython backtracking order, returning the first overall success. -/
def reM : Nat → RE → Str → Cap → (Str → Cap → Option MRes) → Option MRes
  | 0, _, _, _, _ => none
  | _ + 1, RE.eps, s, cap, k => k s cap
  | _ + 1, RE.cls p, s, cap, k =>
    match s with
    | [] => none
    | c :: rest => if p c then k rest cap else none
  | fuel + 1, RE.seq a b, s, cap, k =>
    reM fuel a s cap (fun s1 c1 => reM fuel b s1 c1 k)
  | fuel + 1, RE.alt a b, s, cap, k =>
    match reM fuel a s cap k with
    | some res => some res
    | none => reM fuel b s cap k
  | fuel + 1, RE.star r lz, s, cap, k =>
    if lz then
      match k s cap with
      | some res => some res
      | none =>
        reM fuel r s cap (fun s1 c1 =>
          if s1.length < s.length then reM fuel (RE.star r lz) s1 c1 k else none)
    else
      match reM fuel r s cap (fun s1 c1 =>
          if s1.length < s.length then reM fuel (RE.star r lz) s1 c1 k else none) with
      | some res => some res
      | none => k s cap
  | fuel + 1, RE.look r, s, cap, k =>
    match reM fuel r s cap (fun s1 c1 => some (s1, c1)) with
    | some _ => k s cap
    | none => none
  | fuel + 1, RE.grp r, s, cap, k =>
    reM fuel r s cap (fun s1 _ => k s1 (some (s.take (s.length - s1.length))))
  | _ + 1, RE.eos, s, cap, k =>
    if s = [] ∨ s = [Char.ofNat 10] then k s cap else none

/-- Fuel that is ample for every pattern of the source on input `s`
(the matcher's recursion depth is bounded by the pattern depth plus
the number of star iterations, each of which consumes input). -/
def FUEL (s : Str) : Nat := s.length + 600

/-- Match `r` at the start of `s` (Python `re.match` position 0 attempt). -/
def reMatchAt (r : RE) (s : Str) : Option MRes :=
  reM (FUEL s) r s none (fun s1 c1 => some (s1, c1))

/-- Does `r` match at position 0 (Python `re.match(...) is not None`). -/
def reTestAt0 (r : RE) (s : Str) : Bool :=
  (reMatchAt r s).isSome

/-- Search for the leftmost match (Python `re.search`), returning the
remaining suffix and the capture of group 1. -/
def reSearch (r : RE) : Str → Option MRes
  | [] => reMatchAt r []
  | s@(_ :: rest) =>
    match reMatchAt r s with
    | some res => some res
    | none => reSearch r rest

/-- Capture of group 1 of the leftmost match, when the search succeeds
(semantics of `re.search(p, s)` followed by `.group(1)`; all source
patterns place group 1 outside optional context, so a successful match
always carries a capture — `[]` is returned defensively otherwise). -/
def reSearchCap (r : RE) (s : Str) : Option Str :=
  match reSearch r s with
  | some (_, some g) => some g
  | some (_, none) => some []
  | none => none

/-- Does `r` match anywhere (Python `re.search(...) is not None`). -/
def reTest (r : RE) (s : Str) : Bool :=
  (reSearch r s).isSome

/-- Fueled worker for `reFindAll` (fuel as in `pysplitStrF`). -/
def reFindAllF (r : RE) : Nat → Str → List Str
  | 0, _ => []
  | _ + 1, [] =>
    match reMatchAt r [] with
    | some (_, cap) => [cap.getD []]
    | none => []
  | f + 1, a :: rest =>
    match reMatchAt r (a :: rest) with
    | none => reFindAllF r f rest
    | some (s1, cap) =>
      if s1.length < (a :: rest).length then
        cap.getD [] :: reFindAllF r f s1
      else
        cap.getD [] :: reFindAllF r f rest

/-- Group-1 captures of all non-overlapping matches, scanning left to
right (Python `re.findall` for a single-group pattern); a zero-width
match advances one character, as CPython does. -/
def reFindAll (r : RE) (s : Str) : List Str := reFindAllF r (s.length + 1) s

/-- Fueled worker for `reSubAll` (fuel as in `pysplitStrF`). -/
def reSubAllF (r : RE) (rep : Str) : Nat → Str → Str
  | 0, s => s
  | _ + 1, [] =>
    match reMatchAt r [] with
    | some _ => rep
    | none => []
  | f + 1, a :: rest =>
    match reMatchAt r (a :: rest) with
    | none => a :: reSubAllF r rep f rest
    | some (s1, _) =>
      if s1.length < (a :: rest).length then
        rep ++ reSubAllF r rep f s1
      else
        rep ++ a :: reSubAllF r rep f rest

/-- Global substitution (Python `re.sub(r, rep, s)` for the unanchored
patterns of the source); a zero-width match emits `rep` and advances one
character, as CPython does. -/
def reSubAll (r : RE) (rep s : Str) : Str := reSubAllF r rep (s.length + 1) s

/-- Single anchored substitution with an empty replacement: the
behaviour of `re.sub(p, '', line)` for the `^`-anchored marker patterns
of `remove_leading_bullets_and_numbers` (without `re.MULTILINE`, `^`
matches only at position 0, so at most the leading occurrence is
removed). -/
def subStart (r : RE) (s : Str) : Str :=
  match reMatchAt r s with
  | some (s1, _) => s1
  | none => s

/-! ## Regex AST building blocks -/

/-- Concatenation of a list of regexes. -/
def cat : List RE → RE
  | [] => RE.eps
  | [r] => r
  | r :: rest => RE.seq r (cat rest)

/-- Ordered alternation of a list of regexes. -/
def altL : List RE → RE
  | [] => RE.cls (fun _ => false)
  | [r] => r
  | r :: rest => RE.alt r (altL rest)

/-- Case-sensitive single character. -/
def chr (c : Char) : RE := RE.cls (fun x => x = c)

/-- Case-insensitive single character (ASCII folding, the behaviour of
`(?i)` on the source's patterns). -/
def chrI (c : Char) : RE := RE.cls (fun x => lowerC x = lowerC c)

/-- Case-sensitive literal string. -/
def lit (s : String) : RE := cat (s.data.map chr)

/-- Case-insensitive literal string. -/
def litI (s : String) : RE := cat (s.data.map chrI)

/-- Greedy option `r?`. -/
def opt (r : RE) : RE := RE.alt r RE.eps

/-- Greedy star `r*`. -/
def star (r : RE) : RE := RE.star r false

/-- Greedy plus `r+`. -/
def plus (r : RE) : RE := RE.seq r (RE.star r false)

/-- Lazy star `r*?`. -/
def lazyStar (r : RE) : RE := RE.star r true

/-- Class `\s`. -/
def ws : RE := RE.cls isPyWS

/-- Class `\d` (ASCII digits). -/
def digit : RE := RE.cls Char.isDigit

/-- Dot under `re.DOTALL`. -/
def dotAll : RE := RE.cls (fun _ => true)

/-- Dot without `re.DOTALL` (anything but a newline). -/
def dotNoNl : RE := RE.cls (fun c => ¬ c = Char.ofNat 10)

/-- Class `[A-Z\s]` under `(?i)` (both cases match). -/
def upperWsI : RE :=
  RE.cls (fun c => (('A') ≤ c && c ≤ ('Z')) || (('a') ≤ c && c ≤ ('z')) || isPyWS c)

/-- Class `[A-Z\s]` in a case-sensitive pattern. -/
def upperWsCS : RE :=
  RE.cls (fun c => (('A') ≤ c && c ≤ ('Z')) || isPyWS c)

end JDX

namespace JDX

/-! ## TextNormalizer (JobDataExtractor.__init__ / fix_encoding_issues /
remove_leading_bullets_and_numbers / clean_text) -/

/-- Embedding of `self.char_replacements` (source lines 16-42), in Python
dict insertion order; the source lists the key 'â€"' twice with the same
value, which a Python dict collapses to its first position.  Keys and
values are given by code point, exactly as they appear in the (already
mojibake-mangled) source file. -/
def char_replacements : List (Str × Str) := [
  ([Char.ofNat 0xe2, Char.ofNat 0x20ac, Char.ofNat 0x2122], [Char.ofNat 0x27]),
  ([Char.ofNat 0xe2, Char.ofNat 0x20ac, Char.ofNat 0x153], [Char.ofNat 0x22]),
  ([Char.ofNat 0xe2, Char.ofNat 0x20ac], [Char.ofNat 0x22]),
  ([Char.ofNat 0xe2, Char.ofNat 0x20ac, Char.ofNat 0x22], [Char.ofNat 0x2d]),
  ([Char.ofNat 0xe2, Char.ofNat 0x20ac, Char.ofNat 0xa2], [Char.ofNat 0x2022]),
  ([Char.ofNat 0xc3, Char.ofNat 0xa2, Char.ofNat 0xe2, Char.ofNat 0x201a, Char.ofNat 0xac, Char.ofNat 0xe2, Char.ofNat 0x201e, Char.ofNat 0xa2], [Char.ofNat 0x27]),
  ([Char.ofNat 0xc3, Char.ofNat 0xa2, Char.ofNat 0xe2, Char.ofNat 0x201a, Char.ofNat 0xac, Char.ofNat 0x22], [Char.ofNat 0x22]),
  ([Char.ofNat 0xc3, Char.ofNat 0xa2, Char.ofNat 0xe2, Char.ofNat 0x201a, Char.ofNat 0xac, Char.ofNat 0xc5, Char.ofNat 0x22], [Char.ofNat 0x22]),
  ([Char.ofNat 0xc3, Char.ofNat 0xa2, Char.ofNat 0xe2, Char.ofNat 0x201a, Char.ofNat 0xac], [Char.ofNat 0x22]),
  ([Char.ofNat 0xc3, Char.ofNat 0xa2, Char.ofNat 0xe2, Char.ofNat 0x201a, Char.ofNat 0xac, Char.ofNat 0xc2, Char.ofNat 0xa2], [Char.ofNat 0x2022]),
  ([Char.ofNat 0xc3, Char.ofNat 0x201a], []),
  (S ("&amp;"), [Char.ofNat 0x26]),
  (S ("&nbsp;"), [Char.ofNat 0x20]),
  ([Char.ofNat 0xa0], [Char.ofNat 0x20]),
  ([Char.ofNat 0x2019], [Char.ofNat 0x27]),
  ([Char.ofNat 0x2018], [Char.ofNat 0x27]),
  ([Char.ofNat 0x201c], [Char.ofNat 0x22]),
  ([Char.ofNat 0x201d], [Char.ofNat 0x22]),
  ([Char.ofNat 0x2013], [Char.ofNat 0x2d]),
  ([Char.ofNat 0x2014], [Char.ofNat 0x2d]),
  ([Char.ofNat 0x2022], [Char.ofNat 0x2022]),
  ([Char.ofNat 0xc3, Char.ofNat 0x192, Char.ofNat 0xc2, Char.ofNat 0xa2, Char.ofNat 0xc3, Char.ofNat 0xa2, Char.ofNat 0xe2, Char.ofNat 0x20ac, Char.ofNat 0x161, Char.ofNat 0xc2, Char.ofNat 0xac, Char.ofNat 0xc3, Char.ofNat 0xa2, Char.ofNat 0xe2, Char.ofNat 0x20ac, Char.ofNat 0x17e, Char.ofNat 0xc2, Char.ofNat 0xa2], [Char.ofNat 0x27]),
  ([Char.ofNat 0xc3, Char.ofNat 0xa2, Char.ofNat 0xe2, Char.ofNat 0x201a, Char.ofNat 0xac, Char.ofNat 0xe2, Char.ofNat 0x20ac, Char.ofNat 0xb9], []),
  ([Char.ofNat 0xc3, Char.ofNat 0x192, Char.ofNat 0xc2, Char.ofNat 0xa2, Char.ofNat 0xc3, Char.ofNat 0xa2, Char.ofNat 0xe2, Char.ofNat 0x20ac, Char.ofNat 0x161, Char.ofNat 0xc2, Char.ofNat 0xac], [Char.ofNat 0x22])]

/-- Embedding of `JobDataExtractor.fix_encoding_issues` (lines 44-53):
the replacement table applied as successive `str.replace` passes, in
dict insertion order. -/
def fix_encoding_issues (text : Str) : Str :=
  if text = [] then []
  else char_replacements.foldl (fun t kv => pyreplace kv.1 kv.2 t) text

/-- Marker pattern `^[-•*◦▪▫◆◇→⇒·]\s*` (line 69), anchoring handled by
applying it only at position 0. -/
def bulletPat1 : RE :=
  RE.seq (RE.cls (fun c =>
    c = Char.ofNat 0x2d || c = Char.ofNat 0x2022 || c = Char.ofNat 0x2a ||
    c = Char.ofNat 0x25e6 || c = Char.ofNat 0x25aa || c = Char.ofNat 0x25ab ||
    c = Char.ofNat 0x25c6 || c = Char.ofNat 0x25c7 || c = Char.ofNat 0x2192 ||
    c = Char.ofNat 0x21d2 || c = Char.ofNat 0xb7)) (star ws)

/-- Marker pattern `^\d+[.)]\s*` (line 70). -/
def bulletPat2 : RE :=
  cat [plus digit, RE.cls (fun c => c = ('.') || c = (')')), star ws]

/-- Marker pattern `^[a-zA-Z][.)]\s*` (line 71). -/
def bulletPat3 : RE :=
  cat [RE.cls (fun c => (('a') ≤ c && c ≤ ('z')) || (('A') ≤ c && c ≤ ('Z'))),
       RE.cls (fun c => c = ('.') || c = (')')), star ws]

/-- Marker pattern `^\([a-zA-Z0-9]+\)\s*` (line 72). -/
def bulletPat4 : RE :=
  cat [chr ('('),
       plus (RE.cls (fun c => (('a') ≤ c && c ≤ ('z')) || (('A') ≤ c && c ≤ ('Z')) ||
                              (('0') ≤ c && c ≤ ('9')))),
       chr (')'), star ws]

/-- Marker pattern `^[IVXivx]+[.)]\s*` (line 73). -/
def bulletPat5 : RE :=
  cat [plus (RE.cls (fun c => c = ('I') || c = ('V') || c = ('X') ||
                              c = ('i') || c = ('v') || c = ('x'))),
       RE.cls (fun c => c = ('.') || c = (')')), star ws]

/-- Per-line body of `remove_leading_bullets_and_numbers`: strip, drop
empty lines, apply the five anchored marker substitutions in source
order, strip again, drop lines that became empty. -/
def cleanLine (line : Str) : Option Str :=
  let l := pystrip line
  if l = [] then none
  else
    let l2 := pystrip (subStart bulletPat5 (subStart bulletPat4 (subStart bulletPat3
                (subStart bulletPat2 (subStart bulletPat1 l)))))
    if l2 = [] then none else some l2

/-- Embedding of `JobDataExtractor.remove_leading_bullets_and_numbers`
(lines 55-79). -/
def remove_leading_bullets_and_numbers (text : Str) : Str :=
  if text = [] then []
  else List.intercalate [nlc] ((pysplit nlc text).filterMap cleanLine)

/-- Fueled worker for `collapseWS` (fuel as in `pysplitStrF`). -/
def collapseWSF : Nat → Str → Str
  | 0, s => s
  | _ + 1, [] => []
  | f + 1, c :: rest =>
    if isPyWS c then (' ') :: collapseWSF f (rest.dropWhile isPyWS)
    else c :: collapseWSF f rest

/-- Embedding of `re.sub(r'\s+', ' ', text)` (line 90): every maximal
whitespace run becomes a single space. -/
def collapseWS (s : Str) : Str := collapseWSF (s.length + 1) s

/-- Pattern `\n\s*\n` of `re.sub(r'\n\s*\n', '\n', text)` (line 91). -/
def nlnlRE : RE :=
  cat [chr nlc, star ws, chr nlc]

/-- Pattern `  +` of `re.sub(r'  +', ' ', text)` (line 97). -/
def sp2RE : RE := RE.seq (chr (' ')) (plus (chr (' ')))

/-- Embedding of `JobDataExtractor.clean_text` (lines 81-100): encoding
repair, whitespace collapse, blank-line collapse, marker stripping, double
space collapse, final strip. -/
def clean_text (text : Str) : Str :=
  if text = [] then []
  else
    let t1 := fix_encoding_issues text
    let t2 := collapseWS t1
    let t3 := reSubAll nlnlRE [nlc] t2
    let t4 := remove_leading_bullets_and_numbers t3
    let t5 := reSubAll sp2RE [(' ')] t4
    pystrip t5

end JDX

namespace JDX

/-! ## SectionExtractor patterns

Each Python pattern string is transcribed node for node; `(?i)` becomes
`litI`/`chrI`/`upperWsI`, `(?= ... )` becomes `RE.look`, `(.*?)` becomes
`RE.grp (lazyStar dotAll)` (all section searches pass `re.DOTALL`). -/

/-- Class `[^.;]`. -/
def notDotSemi : RE := RE.cls (fun c => ¬ (c = ('.') ∨ c = (';')))

/-- Class `[^:]`. -/
def notColon : RE := RE.cls (fun c => ¬ c = (':'))

/-- Class `[.;]` (also used by `re.split(r'[.;]', ...)`). -/
def dotSemi : RE := RE.cls (fun c => c = ('.') ∨ c = (';'))

/-- Lookahead `(?=\n\s*(?: alternatives ))` shared by the section
patterns. -/
def lookNext (alts : List RE) : RE :=
  RE.look (cat [chr nlc, star ws, altL alts])

/-- Pattern `^[A-Z\s]+:` of the case-sensitive `re.match` checks
(lines 125 and 272). -/
def upperColonCS : RE := cat [plus upperWsCS, chr (':')]

/-- Pattern fragment `[A-Z\s]+:` as it appears inside `(?i)` lookaheads. -/
def upperColonI : RE := cat [plus upperWsI, chr (':')]

/-- Summary pattern 1 (line 108). -/
def summaryPat1 : RE :=
  cat [opt (cat [litI ("POSITION"), plus ws]), litI ("SUMMARY"), opt (chr (':')), star ws,
       RE.grp (lazyStar dotAll),
       lookNext [litI ("EDUCATION"), litI ("EXPERIENCE"), litI ("QUALIFICATIONS"),
                 litI ("ESSENTIAL"), litI ("RESPONSIBILITIES"), upperColonI, RE.eos]]

/-- Lookahead shared by summary patterns 2-4 (lines 109-111). -/
def summaryLook234 : RE :=
  cat [chr nlc, star ws, altL [litI ("EDUCATION"), litI ("EXPERIENCE"),
       litI ("QUALIFICATIONS"), litI ("ESSENTIAL"), upperColonI, RE.eos]]

/-- Summary pattern 2 `(?i)JOB\s+GOAL:?\s*(.*?)(?=...)` (line 109). -/
def summaryPat2 : RE :=
  cat [litI ("JOB"), plus ws, litI ("GOAL"), opt (chr (':')), star ws,
       RE.grp (lazyStar dotAll), RE.look summaryLook234]

/-- Summary pattern 3 `(?i)OVERVIEW:?\s*(.*?)(?=...)` (line 110). -/
def summaryPat3 : RE :=
  cat [litI ("OVERVIEW"), opt (chr (':')), star ws,
       RE.grp (lazyStar dotAll), RE.look summaryLook234]

/-- Summary pattern 4 `(?i)JOB\s+SUMMARY:?\s*(.*?)(?=...)` (line 111). -/
def summaryPat4 : RE :=
  cat [litI ("JOB"), plus ws, litI ("SUMMARY"), opt (chr (':')), star ws,
       RE.grp (lazyStar dotAll), RE.look summaryLook234]

/-- Education section pattern 1 (line 139). -/
def eduPat1 : RE :=
  cat [litI ("EDUCATION"), plus ws,
       opt (altL [cat [litI ("REQUIREMENT"), opt (chrI ('S'))],
                  cat [litI ("AND"), RE.cls (fun c => c = ('/') || isPyWS c),
                       litI ("OR"), plus ws, litI ("EXPERIENCE")]]),
       opt (chr (':')), star ws, RE.grp (lazyStar dotAll),
       lookNext [litI ("EXPERIENCE"), litI ("LICENSES"), litI ("CERTIFICATES"),
                 litI ("KNOWLEDGE"), litI ("SKILLS"), litI ("ESSENTIAL"),
                 litI ("SUPERVISORY"), litI ("QUALIFICATIONS"), litI ("PHYSICAL"), RE.eos]]

/-- Education section pattern 2 (line 140). -/
def eduPat2 : RE :=
  cat [litI ("QUALIFICATION"), opt (chrI ('S')), opt (chr (':')), star ws,
       opt (cat [litI ("EDUCATION"), opt (chr (':')), star ws]),
       RE.grp (lazyStar dotAll),
       lookNext [litI ("EXPERIENCE"), litI ("LICENSES"), RE.eos]]

/-- Education section pattern 3 (line 141). -/
def eduPat3 : RE :=
  cat [litI ("MINIMUM"), plus ws, litI ("QUALIFICATION"), opt (chrI ('S')),
       opt (chr (':')), star ws, RE.grp (lazyStar dotAll),
       lookNext [litI ("EXPERIENCE"), litI ("LICENSES"), RE.eos]]

/-- Education keyword test (line 154). -/
def eduKwRE : RE :=
  altL [litI ("bachelor"), litI ("master"), litI ("phd"), litI ("doctorate"),
        litI ("associate"), litI ("degree"), litI ("diploma"), litI ("ged"),
        litI ("high school"), litI ("education")]

/-- Years-of-experience exclusion test (line 155). -/
def eduExclRE : RE :=
  cat [plus digit, plus ws,
       altL [cat [litI ("year"), opt (chrI ('s'))], cat [litI ("month"), opt (chrI ('s'))]],
       plus ws, opt (cat [litI ("of"), plus ws]),
       altL [litI ("experience"), litI ("working")]]

/-- Inline education pattern 1 (line 165). -/
def eduInline1 : RE :=
  RE.grp (cat [altL [litI ("bachelor"), litI ("master"), litI ("phd"), litI ("associate")],
               opt (altL [cat [chr apos, chrI ('s')], chrI ('s')]),
               plus ws, litI ("degree"), star notDotSemi, opt dotSemi])

/-- Inline education pattern 2 (line 166). -/
def eduInline2 : RE :=
  RE.grp (cat [litI ("high"), plus ws, litI ("school"), plus ws,
               altL [litI ("diploma"), litI ("degree")], plus ws, litI ("or"), plus ws,
               altL [litI ("ged"), litI ("equivalent")], star notDotSemi, opt dotSemi])

/-- Inline education pattern 3 (line 167). -/
def eduInline3 : RE :=
  RE.grp (cat [litI ("minimum"), plus ws, opt (cat [litI ("of"), plus ws]),
               opt (cat [litI ("a"), plus ws]),
               altL [litI ("bachelor"), litI ("master"), litI ("associate")],
               star notDotSemi, opt dotSemi])

/-- Experience pattern 1 (line 190). -/
def expPat1 : RE :=
  cat [opt (cat [litI ("WORK"), plus ws]), litI ("EXPERIENCE"), star ws,
       opt (cat [litI ("REQUIREMENT"), opt (chrI ('S'))]), opt (chr (':')), star ws,
       RE.grp (lazyStar dotAll),
       lookNext [litI ("EDUCATION"), litI ("LICENSES"), litI ("CERTIFICATES"),
                 litI ("KNOWLEDGE"), litI ("SKILLS"), litI ("ESSENTIAL"), RE.eos]]

/-- Experience pattern 2 (line 191). -/
def expPat2 : RE :=
  RE.grp (cat [plus digit, star ws,
               opt (altL [chr ('+'), chr ('-'), cat [litI ("or"), plus ws, litI ("more")]]),
               star ws,
               altL [cat [litI ("year"), opt (chrI ('s'))], cat [litI ("yr"), opt (chrI ('s'))]],
               plus ws, opt (cat [litI ("of"), plus ws]),
               RE.star notDotSemi true, litI ("experience"), star notDotSemi, opt dotSemi])

/-- Experience pattern 3 (line 192). -/
def expPat3 : RE :=
  RE.grp (cat [altL [litI ("minimum"), cat [litI ("at"), plus ws, litI ("least")],
                     cat [litI ("must"), plus ws, litI ("have")],
                     cat [litI ("require"), opt (chrI ('s'))]],
               plus ws, plus digit, plus ws,
               altL [cat [litI ("year"), opt (chrI ('s'))], cat [litI ("yr"), opt (chrI ('s'))]],
               RE.star notDotSemi true, litI ("experience"), star notDotSemi, opt dotSemi])

/-- Experience pattern 4 (line 193). -/
def expPat4 : RE :=
  RE.grp (cat [litI ("previous"), plus ws, litI ("experience"), star notDotSemi, opt dotSemi])

/-- Digit test `\d+` (line 202). -/
def digitsRE : RE := plus digit

/-- Combined education-and-experience pattern (line 212). -/
def expCombined : RE :=
  cat [litI ("EDUCATION"), plus ws, litI ("AND"), RE.cls (fun c => c = ('/') || isPyWS c),
       litI ("OR"), plus ws, litI ("EXPERIENCE"), opt (chr (':')), star ws,
       RE.grp (lazyStar dotAll),
       lookNext [litI ("CERTIFICATES"), litI ("ESSENTIAL"), litI ("SUPERVISORY"), RE.eos]]

/-- Sentence-level years-of-experience test (line 218; its `.*?` is
outside `re.DOTALL`, so the dot excludes newlines). -/
def yrsExpRE : RE :=
  cat [plus digit, plus ws,
       altL [cat [litI ("year"), opt (chrI ('s'))], cat [litI ("yr"), opt (chrI ('s'))]],
       plus ws, opt (cat [litI ("of"), plus ws]),
       RE.star dotNoNl true, litI ("experience")]

/-- Essential functions pattern 1 (line 232). -/
def funcPat1 : RE :=
  cat [litI ("ESSENTIAL"), plus ws,
       opt (cat [litI ("DUTIES"), plus ws, litI ("AND"), plus ws]),
       altL [litI ("FUNCTIONS"), litI ("RESPONSIBILITIES")],
       star notColon, opt (chr (':')), star ws, RE.grp (lazyStar dotAll),
       lookNext [litI ("SUPERVISORY"), cat [litI ("QUALIFICATION"), opt (chrI ('S'))],
                 cat [litI ("CERTIFICATE"), opt (chrI ('S'))], litI ("COMMUNICATION"),
                 litI ("PHYSICAL"), cat [litI ("WORK"), plus ws, litI ("ENVIRONMENT")],
                 litI ("EDUCATION"), litI ("EXPERIENCE"), RE.eos]]

/-- Essential functions pattern 2 (line 233). -/
def funcPat2 : RE :=
  cat [opt (altL [cat [litI ("KEY"), plus ws], cat [litI ("PRIMARY"), plus ws],
                  cat [litI ("MAJOR"), plus ws]]),
       litI ("RESPONSIBILITIES"), star notColon, opt (chr (':')), star ws,
       RE.grp (lazyStar dotAll),
       lookNext [cat [litI ("QUALIFICATION"), opt (chrI ('S'))],
                 cat [litI ("REQUIREMENT"), opt (chrI ('S'))],
                 litI ("EDUCATION"), litI ("EXPERIENCE"), litI ("SUPERVISORY"), RE.eos]]

/-- Lookahead shared by essential functions patterns 3 and 4. -/
def funcLook34 : List RE :=
  [cat [litI ("QUALIFICATION"), opt (chrI ('S'))],
   cat [litI ("REQUIREMENT"), opt (chrI ('S'))],
   litI ("EDUCATION"), litI ("EXPERIENCE"), RE.eos]

/-- Essential functions pattern 3 (line 234). -/
def funcPat3 : RE :=
  cat [opt (altL [cat [litI ("PRIMARY"), plus ws], cat [litI ("MAJOR"), plus ws]]),
       litI ("DUTIES"), star notColon, opt (chr (':')), star ws,
       RE.grp (lazyStar dotAll), lookNext funcLook34]

/-- Essential functions pattern 4 (line 235). -/
def funcPat4 : RE :=
  cat [litI ("JOB"), plus ws, litI ("DUTIES"), star notColon, opt (chr (':')), star ws,
       RE.grp (lazyStar dotAll), lookNext funcLook34]

/-- Essential functions pattern 5 (line 236). -/
def funcPat5 : RE :=
  cat [litI ("SUPERVISORY"), plus ws, litI ("RESPONSIBILITIES"), opt (chr (':')), star ws,
       RE.grp (lazyStar dotAll),
       lookNext [cat [litI ("QUALIFICATION"), opt (chrI ('S'))],
                 cat [litI ("CERTIFICATE"), opt (chrI ('S'))],
                 litI ("EDUCATION"), RE.eos]]

/-- Duties-section entry test (line 267). -/
def dutiesKwRE : RE :=
  altL [litI ("responsibilities"), litI ("duties"), litI ("functions")]

/-- Fallback bullet test `^[-•*]\s*` (line 276). -/
def fbBulletRE : RE :=
  cat [RE.cls (fun c => c = ('-') || c = Char.ofNat 0x2022 || c = ('*')), star ws]

/-- Licenses pattern 1 (line 295). -/
def certPat1 : RE :=
  cat [altL [cat [litI ("CERTIFICATE"), opt (chrI ('S'))],
             cat [litI ("LICENSE"), opt (chrI ('S'))],
             cat [litI ("CERTIFICATION"), opt (chrI ('S'))],
             cat [litI ("REGISTRATION"), opt (chrI ('S'))]],
       star notColon, opt (chr (':')), star ws, RE.grp (lazyStar dotAll),
       lookNext [litI ("COMMUNICATION"), litI ("MATHEMATICAL"), litI ("REASONING"),
                 litI ("TECHNOLOGY"), litI ("OTHER"), litI ("PHYSICAL"),
                 litI ("LANGUAGE"), litI ("KNOWLEDGE"), litI ("SKILLS"), RE.eos]]

/-- Licenses pattern 2 (line 296). -/
def certPat2 : RE :=
  cat [litI ("LICENSE"), opt (chrI ('S')), plus ws, litI ("AND"), plus ws,
       litI ("CERTIFICATION"), opt (chrI ('S')), star notColon, opt (chr (':')), star ws,
       RE.grp (lazyStar dotAll), lookNext [upperColonI, RE.eos]]

/-- Licenses pattern 3 (line 297). -/
def certPat3 : RE :=
  RE.grp (cat [altL [litI ("valid"), litI ("current"), litI ("active"),
                     cat [litI ("must"), plus ws,
                          altL [litI ("have"), litI ("hold"), litI ("possess")]]],
               plus ws, star notDotSemi,
               altL [litI ("license"), litI ("certification"), litI ("certificate")],
               star notDotSemi, opt dotSemi])

/-- KSA pattern 1 (line 321). -/
def ksaPat1 : RE :=
  cat [altL [litI ("COMMUNICATION"), litI ("LANGUAGE"), litI ("MATHEMATICAL")],
       plus ws, litI ("SKILLS"), opt (chr (':')), star ws, RE.grp (lazyStar dotAll),
       lookNext [litI ("PHYSICAL"), cat [litI ("WORK"), plus ws, litI ("ENVIRONMENT")],
                 litI ("REASONING"), RE.eos]]

/-- KSA pattern 2 (line 322). -/
def ksaPat2 : RE :=
  cat [litI ("KNOWLEDGE"), opt (chr (',')), plus ws, litI ("SKILLS"), opt (chr (',')),
       plus ws, opt (cat [litI ("AND"), plus ws]), litI ("ABILITIES"),
       star notColon, opt (chr (':')), star ws, RE.grp (lazyStar dotAll),
       lookNext [upperColonI, RE.eos]]

/-- KSA pattern 3 (line 323). -/
def ksaPat3 : RE :=
  cat [opt (altL [cat [litI ("REQUIRED"), plus ws], cat [litI ("PREFERRED"), plus ws]]),
       litI ("SKILLS"), star notColon, opt (chr (':')), star ws, RE.grp (lazyStar dotAll),
       lookNext [litI ("EDUCATION"), litI ("EXPERIENCE"), upperColonI, RE.eos]]

/-- KSA pattern 4 (line 324). -/
def ksaPat4 : RE :=
  cat [litI ("OTHER"), plus ws, litI ("SKILLS"), plus ws, litI ("AND"), plus ws,
       litI ("ABILITIES"), opt (chr (':')), star ws, RE.grp (lazyStar dotAll),
       lookNext [litI ("PHYSICAL"), litI ("WORK"), RE.eos]]

/-- KSA pattern 5 (line 325). -/
def ksaPat5 : RE :=
  cat [litI ("REASONING"), plus ws, litI ("ABILITY"), opt (chr (':')), star ws,
       RE.grp (lazyStar dotAll),
       lookNext [litI ("CERTIFICATES"), litI ("OTHER"), litI ("PHYSICAL"), RE.eos]]

/-- KSA pattern 6 (line 326). -/
def ksaPat6 : RE :=
  cat [altL [litI ("COMPUTER"), litI ("TECHNOLOGY")], plus ws, litI ("SKILLS"),
       opt (chr (':')), star ws, RE.grp (lazyStar dotAll),
       lookNext [litI ("OTHER"), litI ("PHYSICAL"), RE.eos]]

/-- KSA skill fallback pattern 1 (line 348). -/
def skillPat1 : RE :=
  RE.grp (cat [altL [litI ("computer"), litI ("communication"), litI ("interpersonal"),
                     cat [litI ("customer"), plus ws, litI ("service")],
                     litI ("analytical"), cat [litI ("problem"), plus ws, litI ("solving")]],
               plus ws, litI ("skills"), star notDotSemi, opt dotSemi])

/-- KSA skill fallback pattern 2 (line 349). -/
def skillPat2 : RE :=
  RE.grp (cat [litI ("ability"), plus ws, litI ("to"), plus ws,
               plus notDotSemi, opt dotSemi])

/-- KSA skill fallback pattern 3 (line 350). -/
def skillPat3 : RE :=
  RE.grp (cat [altL [litI ("strong"), litI ("excellent"), litI ("good")], plus ws,
               star notDotSemi, litI ("skills"), star notDotSemi, opt dotSemi])

/-- KSA skill fallback pattern 4 (line 351). -/
def skillPat4 : RE :=
  RE.grp (cat [altL [litI ("knowledge"), litI ("experience")], plus ws,
               altL [litI ("of"), litI ("with"), litI ("in")], plus ws,
               plus notDotSemi, opt dotSemi])

end JDX

namespace JDX

/-! ## The six extractors (SectionExtractor + RecordAssembler helpers) -/

/-- Splitting on a character class, the semantics of
`re.split(r'[\n;]', s)` and `re.split(r'[.;]', s)`. -/
def splitOnPred (p : Char → Bool) : Str → List Str
  | [] => [[]]
  | a :: rest => if p a then [] :: splitOnPred p rest else consHead a (splitOnPred p rest)

/-- Fueled worker for `splitFuncItems`.  The `prev` argument carries the
character just before the scan position, standing in for the lookbehind;
after a whitespace-run separator the previous character is some
whitespace character, which compares unequal to the period just like the
real one, so a space is passed. -/
def splitFIF : Nat → Option Char → Str → List Str
  | 0, _, _ => [[]]
  | _ + 1, _, [] => [[]]
  | f + 1, prev, c :: rest =>
    if c = nlc ∨ c = (';') then [] :: splitFIF f (some c) rest
    else if prev = some ('.') ∧ isPyWS c ∧
        (((c :: rest).dropWhile isPyWS).head?.any (fun d => ('A') ≤ d && d ≤ ('Z'))) then
      [] :: splitFIF f (some (' ')) ((c :: rest).dropWhile isPyWS)
    else consHead c (splitFIF f (some c) rest)

/-- Embedding of `re.split(r'[\n;]|(?<=\.)\s+(?=[A-Z])', s)` (line 248):
split on newlines and semicolons, and on a whitespace run that follows a
period and precedes an upper-case letter. -/
def splitFuncItems (s : Str) : List Str := splitFIF (s.length + 1) none s

/-- Embedding of `JobDataExtractor.extract_position_summary`
(lines 102-129). -/
def extract_position_summary (jd : Str) : Str :=
  let d := fix_encoding_issues jd
  match firstSome (fun p =>
      match reSearchCap p d with
      | some g =>
        if pystrip g ≠ [] then
          let sm := clean_text g
          if sm.length > 30 then some sm else none
        else none
      | none => none) [summaryPat1, summaryPat2, summaryPat3, summaryPat4] with
  | some sm => sm
  | none =>
    match firstSome (fun para =>
        let p := pystrip para
        if p.length > 50 ∧ ¬ reTestAt0 upperColonCS p then
          if [S ("responsible for"), S ("position"), S ("role"), S ("duties")].any
               (fun w => containsSub w (pylower p)) then
            some (clean_text p)
          else none
        else none) ((pysplitStr (S ("\n\n")) d).take 3) with
    | some r => r
    | none => []

/-- Embedding of `JobDataExtractor.extract_education` (lines 131-180). -/
def extract_education (jd : Str) : Str :=
  let d := fix_encoding_issues jd
  match firstSome (fun p =>
      match reSearchCap p d with
      | some g =>
        firstSome (fun line =>
            let l := pystrip line
            if reTest eduKwRE l ∧ ¬ reTest eduExclRE l then some (clean_text l) else none)
          (pysplit nlc g)
      | none => none) [eduPat1, eduPat2, eduPat3] with
  | some item => item
  | none =>
    match firstSome (fun p =>
        firstSome (fun m =>
            let cm := clean_text m
            if cm ≠ [] ∧ cm.length > 10 then some cm else none)
          (reFindAll p d)) [eduInline1, eduInline2, eduInline3] with
    | some item => item
    | none => []

/-- Embedding of `JobDataExtractor.extract_work_experience`
(lines 182-222). -/
def extract_work_experience (jd : Str) : Str :=
  let d := fix_encoding_issues jd
  match firstSome (fun p =>
      firstSome (fun m =>
          if m ≠ [] then
            let cm := clean_text m
            if containsSub (S ("experience")) (pylower cm) ∧
               (reTest digitsRE cm ∨ containsSub (S ("previous")) (pylower cm)) then
              if ¬ ([S ("bachelor"), S ("master"), S ("degree"), S ("diploma")].any
                     (fun w => containsSub w (pylower cm))) then
                some cm
              else none
            else none
          else none)
        (reFindAll p d)) [expPat1, expPat2, expPat3, expPat4] with
  | some item => item
  | none =>
    match reSearchCap expCombined d with
    | some g =>
      match firstSome (fun sent =>
          if reTest yrsExpRE sent then some (clean_text sent) else none)
          (splitOnPred (fun c => c = ('.') || c = (';')) g) with
      | some item => item
      | none => []
    | none => []

/-- Fallback scan of `extract_essential_functions` (lines 259-279): a
line-by-line loop carrying the in-duties-section flag, stopping at the
next all-caps header once inside a duties section, and collecting
substantial bulleted or in-section lines. -/
def efFallback : Bool → List Str → List Str
  | _, [] => []
  | ind, line :: rest =>
    let ls := pystrip line
    if reTest dutiesKwRE ls then efFallback true rest
    else if ind ∧ reTestAt0 upperColonCS ls then []
    else if reTestAt0 fbBulletRE ls ∨ ind then
      let cleaned := clean_text ls
      if cleaned ≠ [] ∧ cleaned.length > 20 then cleaned :: efFallback ind rest
      else efFallback ind rest
    else efFallback ind rest

/-- Section-pattern stage of `extract_essential_functions` (lines
239-256): the first pattern whose cleaned captured section yields at
least one substantial item wins. -/
def efSectionItems (d : Str) : Option (List Str) :=
  firstSome (fun p =>
      match reSearchCap p d with
      | some g =>
        if pystrip g ≠ [] then
          let items := ((splitFuncItems (clean_text g)).map pystrip).filter
                         (fun i => decide (i ≠ [] ∧ i.length > 20))
          if items ≠ [] then some items else none
        else none
      | none => none) [funcPat1, funcPat2, funcPat3, funcPat4, funcPat5]

/-- Embedding of `JobDataExtractor.extract_essential_functions`
(lines 224-285). -/
def extract_essential_functions (jd : Str) : Str :=
  let d := fix_encoding_issues jd
  let functions :=
    match efSectionItems d with
    | some fs => fs
    | none => efFallback false (pysplit nlc d)
  if functions = [] then []
  else List.intercalate [nlc] (functions.take 15)

/-- Embedding of `JobDataExtractor.extract_licenses_certifications`
(lines 287-311). -/
def extract_licenses_certifications (jd : Str) : Str :=
  let d := fix_encoding_issues jd
  match firstSome (fun p =>
      firstSome (fun m =>
          if m ≠ [] then
            let cm := clean_text m
            if [S ("license"), S ("certif"), S ("registration")].any
                 (fun w => containsSub w (pylower cm)) then
              some cm
            else none
          else none)
        (reFindAll p d)) [certPat1, certPat2, certPat3] with
  | some item => item
  | none => []

/-- Accumulating fallback of `extract_knowledge_skills_abilities`
(lines 346-361): every substantial cleaned match of every pattern is
collected, stopping after a pattern once at least five items exist. -/
def ksaFallbackScan (d : Str) : List RE → List Str → List Str
  | [], acc => acc
  | p :: ps, acc =>
    let acc2 := acc ++ (reFindAll p d).filterMap (fun m =>
        let cm := clean_text m
        if cm ≠ [] ∧ cm.length > 10 then some cm else none)
    if acc2.length ≥ 5 then acc2 else ksaFallbackScan d ps acc2

/-- Embedding of `JobDataExtractor.extract_knowledge_skills_abilities`
(lines 313-367). -/
def extract_knowledge_skills_abilities (jd : Str) : Str :=
  let d := fix_encoding_issues jd
  let ksaItems :=
    match firstSome (fun p =>
        match reSearchCap p d with
        | some g =>
          if pystrip g ≠ [] then
            let items := ((splitOnPred (fun c => c = nlc || c = (';'))
                            (clean_text g)).map pystrip).filter
                           (fun i => decide (i ≠ [] ∧ i.length > 15))
            if items ≠ [] then some items else none
          else none
        | none => none) [ksaPat1, ksaPat2, ksaPat3, ksaPat4, ksaPat5, ksaPat6] with
    | some l => l
    | none => ksaFallbackScan d [skillPat1, skillPat2, skillPat3, skillPat4] []
  if ksaItems = [] then []
  else List.intercalate [nlc] (ksaItems.take 10)

/-- Key-function selection of `infer_position_summary` (lines 374-385):
the first up to three lines whose stripped length exceeds 20, lowered
and with a trailing period removed. -/
def inferKeyFunctions (essential_functions : Str) : List Str :=
  ((pysplit nlc essential_functions).take 3).filterMap (fun f =>
    let g := pystrip f
    if g ≠ [] ∧ g.length > 20 then
      let lg := pylower g
      some (if pyendswith ('.') lg then lg.dropLast else lg)
    else none)

/-- Embedding of `JobDataExtractor.infer_position_summary`
(lines 369-395). -/
def infer_position_summary (essential_functions job_title : Str) : Str :=
  if essential_functions = [] ∨ job_title = [] then []
  else
    match inferKeyFunctions essential_functions with
    | [] => []
    | [k1] =>
      S ("*The ") ++ job_title ++ S (" is responsible for ") ++ k1 ++ [('.')]
    | k1 :: k2 :: _ =>
      S ("*The ") ++ job_title ++ S (" is responsible for ") ++ k1 ++
        S (" and ") ++ k2 ++ [('.')]

/-- Embedding of `JobDataExtractor.process_single_job` (lines 397-424):
the returned Python dict is modelled as an association list in insertion
order. -/
def process_single_job (job_title job_description : Str) : List (Str × Str) :=
  let position_summary := extract_position_summary job_description
  let education := extract_education job_description
  let work_experience := extract_work_experience job_description
  let essential_functions := extract_essential_functions job_description
  let licenses_certifications := extract_licenses_certifications job_description
  let knowledge_skills_abilities := extract_knowledge_skills_abilities job_description
  let final_summary :=
    if position_summary = [] ∧ ¬ essential_functions = [] then
      infer_position_summary essential_functions job_title
    else position_summary
  [(S ("Job Description Name"), job_title),
   (S ("Position Summary"), final_summary),
   (S ("Education"), education),
   (S ("Work Experience"), work_experience),
   (S ("Essential Functions"), essential_functions),
   (S ("Licenses and Certifications"), licenses_certifications),
   (S ("Knowledge, Skills and Abilities"), knowledge_skills_abilities)]

/-- Embedding of the row loop of `JobDataExtractor.transform_data`
(lines 517-551), the `processBatch` of the specification: a row is a
(title, description) pair; a row whose stripped title and stripped
description are both empty is skipped, every other row yields exactly
one record (in the model `process_single_job` is total, so the
exception branch that substitutes an empty-valued record never fires). -/
def transform_data : List (Str × Str) → List (List (Str × Str))
  | [] => []
  | (t, d) :: rest =>
    if pystrip t = [] ∧ pystrip d = [] then transform_data rest
    else process_single_job t d :: transform_data rest

end JDX

namespace JDX

/-! ## Concrete inputs used by the claim theorems -/

/-- Example description of specification scenario 1. -/
def exDesc1 : Str :=
  S ("SUMMARY: Leads the front office team.\nEDUCATION: Bachelor") ++ [apos] ++
    S ("s degree required.")

/-- Description whose summary is inferred from a fallback-collected
bulleted duty. -/
def exDescDuties : Str := S ("DUTIES:\n- Coordinate annual department budget reviews")

/-- Description with a line-initial EXPERIENCE header after an
education section. -/
def exDescBoundary : Str :=
  S ("EDUCATION REQUIREMENTS: Bachelor degree required\nEXPERIENCE: five years")

/-- Description where the EXPERIENCE header sits mid-line inside the
text matched by the inline degree pattern. -/
def exDescLeak : Str := S ("Bachelor degree and EXPERIENCE: drive trucks")

/-- The singly mangled apostrophe sequence 'â€™' (table key 1). -/
def mangledApos1 : Str := [Char.ofNat 0xe2, Char.ofNat 0x20ac, Char.ofNat 0x2122]

/-- The singly mangled bullet sequence 'â€¢' (table key 5). -/
def mangledBullet : Str := [Char.ofNat 0xe2, Char.ofNat 0x20ac, Char.ofNat 0xa2]

/-- The triply mangled apostrophe sequence (table key 22). -/
def mangledApos3 : Str :=
  [Char.ofNat 0xc3, Char.ofNat 0x192, Char.ofNat 0xc2, Char.ofNat 0xa2,
   Char.ofNat 0xc3, Char.ofNat 0xa2, Char.ofNat 0xe2, Char.ofNat 0x20ac,
   Char.ofNat 0x161, Char.ofNat 0xc2, Char.ofNat 0xac, Char.ofNat 0xc3,
   Char.ofNat 0xa2, Char.ofNat 0xe2, Char.ofNat 0x20ac, Char.ofNat 0x17e,
   Char.ofNat 0xc2, Char.ofNat 0xa2]

/-- Soundness of the matcher: a successful run reaches its continuation
on a suffix of the input. -/
theorem reM_sound : ∀ (fuel : Nat) (r : RE) (s : Str) (cap : Cap)
    (k : Str → Cap → Option MRes) (res : MRes),
    reM fuel r s cap k = some res → ∃ s1 c1, s1 <:+ s ∧ k s1 c1 = some res := by
  intro fuel
  induction fuel with
  | zero => intro r s cap k res h; simp [reM] at h
  | succ f IH =>
    intro r s cap k res h
    cases r with
    | eps => exact ⟨s, cap, List.suffix_refl s, by simpa [reM] using h⟩
    | cls p =>
      cases s with
      | nil => simp [reM] at h
      | cons c rest =>
        simp only [reM] at h
        by_cases hp : p c
        · rw [if_pos hp] at h
          exact ⟨rest, cap, List.suffix_cons c rest, h⟩
        · rw [if_neg hp] at h
          exact absurd h (by simp)
    | seq a b =>
      simp only [reM] at h
      obtain ⟨s1, c1, hsuf, hk⟩ := IH a s cap _ res h
      obtain ⟨s2, c2, hsuf2, hk2⟩ := IH b s1 c1 k res hk
      exact ⟨s2, c2, hsuf2.trans hsuf, hk2⟩
    | alt a b =>
      simp only [reM] at h
      cases ha : reM f a s cap k with
      | some r2 =>
        rw [ha] at h
        simp only [Option.some.injEq] at h
        subst h
        exact IH a s cap k r2 ha
      | none =>
        rw [ha] at h
        simp only at h
        exact IH b s cap k res h
    | star r lz =>
      cases lz with
      | true =>
        replace h : (match k s cap with
            | some res => some res
            | none => reM f r s cap (fun s1 c1 =>
                if s1.length < s.length then reM f (RE.star r true) s1 c1 k else none)) =
            some res := h
        cases hk : k s cap with
        | some r2 =>
          rw [hk] at h
          simp only [Option.some.injEq] at h
          subst h
          exact ⟨s, cap, List.suffix_refl s, hk⟩
        | none =>
          rw [hk] at h
          simp only at h
          obtain ⟨s1, c1, hsuf, hcont⟩ := IH r s cap _ res h
          by_cases hlen : s1.length < s.length
          · rw [if_pos hlen] at hcont
            obtain ⟨s2, c2, hsuf2, hk2⟩ := IH (RE.star r true) s1 c1 k res hcont
            exact ⟨s2, c2, hsuf2.trans hsuf, hk2⟩
          · rw [if_neg hlen] at hcont
            exact absurd hcont (by simp)
      | false =>
        replace h : (match reM f r s cap (fun s1 c1 =>
              if s1.length < s.length then reM f (RE.star r false) s1 c1 k else none) with
            | some res => some res
            | none => k s cap) = some res := h
        cases hb : reM f r s cap (fun s1 c1 =>
            if s1.length < s.length then reM f (RE.star r false) s1 c1 k else none) with
        | some r2 =>
          rw [hb] at h
          simp only [Option.some.injEq] at h
          subst h
          obtain ⟨s1, c1, hsuf, hcont⟩ := IH r s cap _ r2 hb
          by_cases hlen : s1.length < s.length
          · rw [if_pos hlen] at hcont
            obtain ⟨s2, c2, hsuf2, hk2⟩ := IH (RE.star r false) s1 c1 k r2 hcont
            exact ⟨s2, c2, hsuf2.trans hsuf, hk2⟩
          · rw [if_neg hlen] at hcont
            exact absurd hcont (by simp)
        | none =>
          rw [hb] at h
          simp only at h
          exact ⟨s, cap, List.suffix_refl s, h⟩
    | look r =>
      simp only [reM] at h
      cases hi : reM f r s cap (fun s1 c1 => some (s1, c1)) with
      | some r2 =>
        rw [hi] at h
        exact ⟨s, cap, List.suffix_refl s, h⟩
      | none =>
        rw [hi] at h
        exact absurd h (by simp)
    | grp r =>
      simp only [reM] at h
      obtain ⟨s1, c1, hsuf, hk⟩ := IH r s cap _ res h
      exact ⟨s1, some (s.take (s.length - s1.length)), hsuf, hk⟩
    | eos =>
      simp only [reM] at h
      by_cases he : s = [] ∨ s = [Char.ofNat 10]
      · rw [if_pos he] at h
        exact ⟨s, cap, List.suffix_refl s, h⟩
      · rw [if_neg he] at h
        exact absurd h (by simp)

/-- A successful anchored match leaves a suffix of the input. -/
theorem reMatchAt_suffix {r : RE} {s s1 : Str} {c1 : Cap}
    (h : reMatchAt r s = some (s1, c1)) : s1 <:+ s := by
  obtain ⟨s2, c2, hsuf, hk⟩ := reM_sound (FUEL s) r s none _ (s1, c1) h
  simp only [Option.some.injEq, Prod.mk.injEq] at hk
  rw [hk.1] at hsuf
  exact hsuf

/-- The anchored empty-replacement substitution returns a suffix. -/
theorem subStart_suffix (r : RE) (s : Str) : subStart r s <:+ s := by
  unfold subStart
  cases h : reMatchAt r s with
  | some res =>
    cases res with
    | mk s1 c1 => simpa using reMatchAt_suffix h
  | none => simp

end JDX

namespace JDX

/-- A sequence headed by a character class cannot match when the first
character (if any) fails the class. -/
theorem reM_cls_seq_none (f : Nat) (p : Char → Bool) (r : RE) (s : Str) (cap : Cap)
    (k : Str → Cap → Option MRes) (hs : ∀ c ∈ s.take 1, p c = false) :
    reM f (RE.seq (RE.cls p) r) s cap k = none := by
  cases f with
  | zero => simp [reM]
  | succ f1 =>
    cases f1 with
    | zero => simp [reM]
    | succ f2 =>
      cases s with
      | nil => simp [reM]
      | cons c rest =>
        have hc : p c = false := hs c (by simp)
        simp [reM, hc]

/-- The blank-line pattern cannot match text without a newline. -/
theorem reMatchAt_nlnl_none (s : Str) (h : nlc ∉ s) : reMatchAt nlnlRE s = none := by
  unfold reMatchAt
  apply reM_cls_seq_none
  intro c hc
  cases s with
  | nil => simp at hc
  | cons a rest =>
    simp only [List.take_succ_cons, List.take_zero, List.mem_singleton] at hc
    subst hc
    have ha : c ≠ nlc := fun he => h (he ▸ List.mem_cons_self c rest)
    simpa [decide_eq_false_iff_not] using ha

/-- On newline-free text the blank-line substitution is the identity. -/
theorem reSubAllF_nlnl_id : ∀ (f : Nat) (s : Str), nlc ∉ s →
    reSubAllF nlnlRE [nlc] f s = s := by
  intro f
  induction f with
  | zero => intro s h; rfl
  | succ f1 IH =>
    intro s h
    cases s with
    | nil => simp [reSubAllF, reMatchAt_nlnl_none [] (by simp)]
    | cons a rest =>
      have hm := reMatchAt_nlnl_none (a :: rest) h
      have hrest : nlc ∉ rest := fun hr => h (List.mem_cons_of_mem a hr)
      simp [reSubAllF, hm, IH rest hrest]

/-- Characters of a global substitution come from the replacement or
from the input. -/
theorem mem_reSubAllF (r : RE) (rep : Str) : ∀ (f : Nat) (s : Str) (c : Char),
    c ∈ reSubAllF r rep f s → c ∈ rep ∨ c ∈ s := by
  intro f
  induction f with
  | zero => intro s c h; exact Or.inr h
  | succ f1 IH =>
    intro s c h
    cases s with
    | nil =>
      rw [reSubAllF] at h
      cases hm : reMatchAt r [] with
      | some res => rw [hm] at h; exact Or.inl h
      | none => rw [hm] at h; simp at h
    | cons a rest =>
      rw [reSubAllF] at h
      cases hm : reMatchAt r (a :: rest) with
      | none =>
        rw [hm] at h
        rcases List.mem_cons.mp h with hc | hc
        · exact Or.inr (hc ▸ List.mem_cons_self a rest)
        · rcases IH rest c hc with hr | hr
          · exact Or.inl hr
          · exact Or.inr (List.mem_cons_of_mem a hr)
      | some res =>
        cases res with
        | mk s1 c1 =>
          rw [hm] at h
          replace h : c ∈ (if s1.length < (a :: rest).length
              then rep ++ reSubAllF r rep f1 s1
              else rep ++ a :: reSubAllF r rep f1 rest) := h
          by_cases hlen : s1.length < (a :: rest).length
          · rw [if_pos hlen] at h
            rcases List.mem_append.mp h with hr | hr
            · exact Or.inl hr
            · rcases IH s1 c hr with h2 | h2
              · exact Or.inl h2
              · exact Or.inr ((reMatchAt_suffix hm).subset h2)
          · rw [if_neg hlen] at h
            rcases List.mem_append.mp h with hr | hr
            · exact Or.inl hr
            · rcases List.mem_cons.mp hr with hc | hc
              · exact Or.inr (hc ▸ List.mem_cons_self a rest)
              · rcases IH rest c hc with h2 | h2
                · exact Or.inl h2
                · exact Or.inr (List.mem_cons_of_mem a h2)

/-- Characters of a whitespace-collapsed string are spaces or
non-whitespace characters of the input. -/
theorem mem_collapseWSF : ∀ (f : Nat) (s : Str), s.length < f → ∀ c ∈ collapseWSF f s,
    c = (' ') ∨ (c ∈ s ∧ isPyWS c = false) := by
  intro f
  induction f with
  | zero => intro s h; omega
  | succ f1 IH =>
    intro s hlen c hc
    cases s with
    | nil => simp [collapseWSF] at hc
    | cons a rest =>
      rw [collapseWSF] at hc
      by_cases ha : isPyWS a
      · rw [if_pos ha] at hc
        rcases List.mem_cons.mp hc with h1 | h1
        · exact Or.inl h1
        · have hd : (rest.dropWhile isPyWS).length < f1 := by
            have := (List.dropWhile_sublist (l := rest) isPyWS).length_le
            simp only [List.length_cons] at hlen
            omega
          rcases IH _ hd c h1 with h2 | h2
          · exact Or.inl h2
          · exact Or.inr ⟨List.mem_cons_of_mem a ((List.dropWhile_sublist isPyWS).subset h2.1), h2.2⟩
      · rw [if_neg ha] at hc
        rcases List.mem_cons.mp hc with h1 | h1
        · refine Or.inr ⟨by rw [h1]; exact List.mem_cons_self a rest, ?_⟩
          rw [h1]
          simpa using ha
        · have hr : rest.length < f1 := by
            simp only [List.length_cons] at hlen
            omega
          rcases IH rest hr c h1 with h2 | h2
          · exact Or.inl h2
          · exact Or.inr ⟨List.mem_cons_of_mem a h2.1, h2.2⟩

/-- Stripping only removes characters. -/
theorem pystrip_subset (s : Str) : pystrip s ⊆ s := by
  intro c hc
  unfold pystrip at hc
  rw [List.mem_reverse] at hc
  have h1 := (List.dropWhile_sublist (l := (s.dropWhile isPyWS).reverse) isPyWS).subset hc
  rw [List.mem_reverse] at h1
  exact (List.dropWhile_sublist isPyWS).subset h1

end JDX

namespace JDX

/-- Destructuring membership in `consHead`. -/
theorem mem_consHead {a : Char} {l : List Str} {part : Str}
    (hp : part ∈ consHead a l) :
    (l = [] ∧ part = [a]) ∨ ∃ h t, l = h :: t ∧ (part = a :: h ∨ part ∈ t) := by
  cases l with
  | nil =>
    simp only [consHead, List.mem_singleton] at hp
    exact Or.inl ⟨rfl, hp⟩
  | cons h t =>
    simp only [consHead, List.mem_cons] at hp
    exact Or.inr ⟨h, t, rfl, hp⟩

/-- A split result is never empty. -/
theorem pysplit_ne_nil (c : Char) (s : Str) : pysplit c s ≠ [] := by
  cases s with
  | nil => simp [pysplit]
  | cons a rest =>
    rw [pysplit]
    by_cases h : a = c
    · simp [h]
    · rw [if_neg h]
      cases hq : pysplit c rest with
      | nil => simp [consHead]
      | cons x t => simp [consHead]

/-- Parts produced by a single-character split do not contain the
separator. -/
theorem pysplit_parts (c : Char) : ∀ (s : Str) (part : Str),
    part ∈ pysplit c s → c ∉ part := by
  intro s
  induction s with
  | nil =>
    intro part hp
    simp only [pysplit, List.mem_singleton] at hp
    subst hp
    simp
  | cons a rest IH =>
    intro part hp
    rw [pysplit] at hp
    by_cases h : a = c
    · rw [if_pos h] at hp
      rcases List.mem_cons.mp hp with h1 | h1
      · subst h1; simp
      · exact IH part h1
    · rw [if_neg h] at hp
      rcases mem_consHead hp with ⟨hq, hpart⟩ | ⟨x, t, hq, hpart⟩
      · subst hpart
        simp only [List.mem_singleton]
        exact fun he => h he.symm
      · rcases hpart with h1 | h1
        · subst h1
          intro hmem
          rcases List.mem_cons.mp hmem with h2 | h2
          · exact h h2.symm
          · exact IH x (hq ▸ List.mem_cons_self x t) h2
        · exact IH part (hq ▸ List.mem_cons_of_mem x h1)

/-- Splitting a separator-free string gives that string back. -/
theorem pysplit_of_not_mem {c : Char} : ∀ {s : Str}, c ∉ s → pysplit c s = [s] := by
  intro s
  induction s with
  | nil => intro _; rfl
  | cons a rest IH =>
    intro h
    have ha : ¬ a = c := fun he => h (he ▸ List.mem_cons_self a rest)
    have hrest : c ∉ rest := fun hr => h (List.mem_cons_of_mem a hr)
    rw [pysplit, if_neg ha, IH hrest]
    rfl

/-- Splitting after an explicit separator occurrence. -/
theorem pysplit_append {c : Char} : ∀ {x : Str} (rest : Str), c ∉ x →
    pysplit c (x ++ c :: rest) = x :: pysplit c rest := by
  intro x
  induction x with
  | nil => intro rest _; simp [pysplit]
  | cons a x1 IH =>
    intro rest h
    have ha : ¬ a = c := fun he => h (he ▸ List.mem_cons_self a x1)
    have hx : c ∉ x1 := fun hr => h (List.mem_cons_of_mem a hr)
    rw [List.cons_append, pysplit, if_neg ha, IH rest hx]
    rfl

/-- Splitting inverts joining for separator-free parts. -/
theorem pysplit_intercalate {c : Char} : ∀ {l : List Str}, l ≠ [] →
    (∀ x ∈ l, c ∉ x) → pysplit c (List.intercalate [c] l) = l := by
  intro l
  induction l with
  | nil => intro h; exact absurd rfl h
  | cons x t IH =>
    intro _ hparts
    cases t with
    | nil =>
      have : List.intercalate [c] [x] = x := by simp [List.intercalate]
      rw [this, pysplit_of_not_mem (hparts x (List.mem_singleton.mpr rfl))]
    | cons y t2 =>
      have hi : List.intercalate [c] (x :: y :: t2) = x ++ c :: List.intercalate [c] (y :: t2) := by
        simp [List.intercalate, List.intersperse]
      rw [hi, pysplit_append _ (hparts x (List.mem_cons_self x _))]
      rw [IH (by simp) (fun z hz => hparts z (List.mem_cons_of_mem x hz))]

/-- Length of a single-character split. -/
theorem pysplit_length (c : Char) : ∀ (s : Str),
    (pysplit c s).length = s.count c + 1 := by
  intro s
  induction s with
  | nil => simp [pysplit]
  | cons a rest IH =>
    rw [pysplit]
    by_cases h : a = c
    · subst h
      simp [List.count_cons_self, IH]
    · rw [if_neg h]
      rw [List.count_cons_of_ne (fun he => h he.symm) rest]
      cases hq : pysplit c rest with
      | nil => exact absurd hq (pysplit_ne_nil c rest)
      | cons p t =>
        simp only [consHead, List.length_cons]
        rw [hq] at IH
        simpa using IH

/-- Counting the separator in a join of separator-free parts. -/
theorem count_intercalate (c : Char) : ∀ (l : List Str), l ≠ [] →
    (∀ x ∈ l, c ∉ x) → (List.intercalate [c] l).count c = l.length - 1 := by
  intro l
  induction l with
  | nil => intro h; exact absurd rfl h
  | cons x t IH =>
    intro _ hparts
    cases t with
    | nil =>
      have : List.intercalate [c] [x] = x := by simp [List.intercalate]
      rw [this]
      simp [List.count_eq_zero.mpr (hparts x (List.mem_singleton.mpr rfl))]
    | cons y t2 =>
      have hi : List.intercalate [c] (x :: y :: t2) = x ++ c :: List.intercalate [c] (y :: t2) := by
        simp [List.intercalate, List.intersperse]
      rw [hi, List.count_append]
      rw [List.count_eq_zero.mpr (hparts x (List.mem_cons_self x _))]
      rw [List.count_cons_self]
      rw [IH (by simp) (fun z hz => hparts z (List.mem_cons_of_mem x hz))]
      simp [List.length_cons]

end JDX

namespace JDX

/-- The anchored substitution only removes characters. -/
theorem subStart_subset (r : RE) (s : Str) : subStart r s ⊆ s :=
  (subStart_suffix r s).subset

/-- A kept line of the bullet stripper is a nonempty set of characters
of the original line. -/
theorem cleanLine_some {line x : Str} (h : cleanLine line = some x) :
    x ≠ [] ∧ x ⊆ line := by
  unfold cleanLine at h
  by_cases h1 : pystrip line = []
  · rw [if_pos h1] at h
    exact absurd h (by simp)
  · rw [if_neg h1] at h
    by_cases h2 : pystrip (subStart bulletPat5 (subStart bulletPat4 (subStart bulletPat3
        (subStart bulletPat2 (subStart bulletPat1 (pystrip line)))))) = []
    · rw [if_pos h2] at h
      exact absurd h (by simp)
    · rw [if_neg h2] at h
      simp only [Option.some.injEq] at h
      subst h
      refine ⟨h2, ?_⟩
      intro c hc
      have hc1 := pystrip_subset _ hc
      have hc2 := subStart_subset bulletPat5 _ hc1
      have hc3 := subStart_subset bulletPat4 _ hc2
      have hc4 := subStart_subset bulletPat3 _ hc3
      have hc5 := subStart_subset bulletPat2 _ hc4
      have hc6 := subStart_subset bulletPat1 _ hc5
      exact pystrip_subset _ hc6

/-- Every part kept by the bullet stripper is nonempty and
newline-free. -/
theorem mem_filterMap_cleanLine {s x : Str}
    (hx : x ∈ (pysplit nlc s).filterMap cleanLine) : x ≠ [] ∧ nlc ∉ x := by
  rcases List.mem_filterMap.mp hx with ⟨line, hline, hcl⟩
  rcases cleanLine_some hcl with ⟨hne, hsub⟩
  exact ⟨hne, fun hmem => pysplit_parts nlc s line hline (hsub hmem)⟩

/-- The bullet stripper produces newline-free output from newline-free
input. -/
theorem removeBullets_no_nl {t : Str} (h : nlc ∉ t) :
    nlc ∉ remove_leading_bullets_and_numbers t := by
  unfold remove_leading_bullets_and_numbers
  by_cases ht : t = []
  · simp [ht]
  · rw [if_neg ht, pysplit_of_not_mem h]
    cases hc : cleanLine t with
    | none => simp [List.filterMap, hc, List.intercalate]
    | some x =>
      have : List.filterMap cleanLine [t] = [x] := by simp [List.filterMap, hc]
      rw [this]
      have hi : List.intercalate [nlc] [x] = x := by simp [List.intercalate]
      rw [hi]
      exact fun hmem => h ((cleanLine_some hc).2 hmem)

/-- The whitespace collapse produces newline-free output. -/
theorem collapseWS_no_nl (t : Str) : nlc ∉ collapseWS t := by
  intro hmem
  rcases mem_collapseWSF (t.length + 1) t (Nat.lt_succ_self _) nlc hmem with h | h
  · exact absurd h (by decide)
  · have : isPyWS nlc = true := by decide
    rw [h.2] at this
    exact absurd this (by simp)

/-- The normalizer never emits a newline: every whitespace run collapses
to a single space before the per-line stage, which then operates on a
single line. -/
theorem clean_text_no_nl (s : Str) : nlc ∉ clean_text s := by
  unfold clean_text
  by_cases hs : s = []
  · simp [hs]
  · rw [if_neg hs]
    intro hmem
    replace hmem : nlc ∈ pystrip (reSubAll sp2RE [(' ')]
        (remove_leading_bullets_and_numbers (reSubAll nlnlRE [nlc]
          (collapseWS (fix_encoding_issues s))))) := hmem
    have h2 : nlc ∉ collapseWS (fix_encoding_issues s) := collapseWS_no_nl _
    rw [show reSubAll nlnlRE [nlc] (collapseWS (fix_encoding_issues s)) =
        collapseWS (fix_encoding_issues s) from reSubAllF_nlnl_id _ _ h2] at hmem
    have h4 : nlc ∉ remove_leading_bullets_and_numbers
        (collapseWS (fix_encoding_issues s)) := removeBullets_no_nl h2
    have h5 := pystrip_subset _ hmem
    rcases mem_reSubAllF sp2RE [(' ')] _ _ nlc h5 with h6 | h6
    · exact absurd h6 (by decide)
    · exact h4 h6

end JDX

namespace JDX

/-- A successful `firstSome` comes from some list element. -/
theorem firstSome_some {f : α → Option β} : ∀ {l : List α} {b : β},
    firstSome f l = some b → ∃ a ∈ l, f a = some b := by
  intro l
  induction l with
  | nil => intro b h; simp [firstSome] at h
  | cons a rest IH =>
    intro b h
    rw [firstSome] at h
    cases ha : f a with
    | some b2 =>
      rw [ha] at h
      simp only [Option.some.injEq] at h
      subst h
      exact ⟨a, List.mem_cons_self a rest, ha⟩
    | none =>
      rw [ha] at h
      simp only at h
      rcases IH h with ⟨a2, ha2, hfa⟩
      exact ⟨a2, List.mem_cons_of_mem a ha2, hfa⟩

/-- Characters of the item-splitting parts come from the input. -/
theorem mem_splitFIF : ∀ (f : Nat) (prev : Option Char) (s part : Str) (c : Char),
    part ∈ splitFIF f prev s → c ∈ part → c ∈ s := by
  intro f
  induction f with
  | zero =>
    intro prev s part c hp hc
    simp only [splitFIF, List.mem_singleton] at hp
    subst hp
    simp at hc
  | succ f1 IH =>
    intro prev s part c hp hc
    cases s with
    | nil =>
      simp only [splitFIF, List.mem_singleton] at hp
      subst hp
      simp at hc
    | cons a rest =>
      rw [splitFIF] at hp
      by_cases h1 : a = nlc ∨ a = (';')
      · rw [if_pos h1] at hp
        rcases List.mem_cons.mp hp with h2 | h2
        · subst h2; simp at hc
        · exact List.mem_cons_of_mem a (IH _ rest part c h2 hc)
      · rw [if_neg h1] at hp
        by_cases h2 : prev = some ('.') ∧ isPyWS a ∧
            (((a :: rest).dropWhile isPyWS).head?.any (fun d => ('A') ≤ d && d ≤ ('Z')))
        · rw [if_pos h2] at hp
          rcases List.mem_cons.mp hp with h3 | h3
          · subst h3; simp at hc
          · exact (List.dropWhile_sublist isPyWS).subset
              (IH _ ((a :: rest).dropWhile isPyWS) part c h3 hc)
        · rw [if_neg h2] at hp
          rcases mem_consHead hp with ⟨hq, hpart⟩ | ⟨x, t, hq, hpart⟩
          · subst hpart
            simp only [List.mem_singleton] at hc
            exact hc ▸ List.mem_cons_self a rest
          · rcases hpart with h3 | h3
            · subst h3
              rcases List.mem_cons.mp hc with h4 | h4
              · exact h4 ▸ List.mem_cons_self a rest
              · exact List.mem_cons_of_mem a (IH _ rest x c (hq ▸ List.mem_cons_self x t) h4)
            · exact List.mem_cons_of_mem a (IH _ rest part c (hq ▸ List.mem_cons_of_mem x h3) hc)

/-- Every element collected by the essential-functions fallback scan is
a `clean_text` output, hence newline-free. -/
theorem efFallback_no_nl : ∀ (ind : Bool) (lines : List Str) (x : Str),
    x ∈ efFallback ind lines → nlc ∉ x := by
  intro ind lines
  induction lines generalizing ind with
  | nil => intro x hx; simp [efFallback] at hx
  | cons line rest IH =>
    intro x hx
    rw [efFallback] at hx
    by_cases h1 : reTest dutiesKwRE (pystrip line)
    · rw [if_pos h1] at hx
      exact IH true x hx
    · rw [if_neg h1] at hx
      by_cases h2 : ind ∧ reTestAt0 upperColonCS (pystrip line)
      · rw [if_pos h2] at hx
        simp at hx
      · rw [if_neg h2] at hx
        by_cases h3 : reTestAt0 fbBulletRE (pystrip line) ∨ ind
        · rw [if_pos h3] at hx
          by_cases h4 : clean_text (pystrip line) ≠ [] ∧ (clean_text (pystrip line)).length > 20
          · rw [if_pos h4] at hx
            rcases List.mem_cons.mp hx with h5 | h5
            · exact h5 ▸ clean_text_no_nl (pystrip line)
            · exact IH ind x h5
          · rw [if_neg h4] at hx
            exact IH ind x hx
        · rw [if_neg h3] at hx
          exact IH ind x hx

end JDX

namespace JDX

/-- Items produced by the section stage of the essential-functions
extractor are newline-free. -/
theorem efSectionItems_no_nl {d : Str} {l : List Str}
    (hs : efSectionItems d = some l) : ∀ x ∈ l, nlc ∉ x := by
  intro x hx hmem
  rcases firstSome_some hs with ⟨p, hp, hf⟩
  cases hg : reSearchCap p d with
  | none => rw [hg] at hf; simp at hf
  | some g =>
    rw [hg] at hf
    replace hf : (if pystrip g ≠ [] then
        (let items := ((splitFuncItems (clean_text g)).map pystrip).filter
            (fun i => decide (i ≠ [] ∧ i.length > 20))
         if items ≠ [] then some items else none)
        else none) = some l := hf
    by_cases h1 : pystrip g ≠ []
    · rw [if_pos h1] at hf
      replace hf : (if ((splitFuncItems (clean_text g)).map pystrip).filter
            (fun i => decide (i ≠ [] ∧ i.length > 20)) ≠ []
          then some (((splitFuncItems (clean_text g)).map pystrip).filter
            (fun i => decide (i ≠ [] ∧ i.length > 20)))
          else none) = some l := hf
      by_cases h2 : ((splitFuncItems (clean_text g)).map pystrip).filter
          (fun i => decide (i ≠ [] ∧ i.length > 20)) ≠ []
      · rw [if_pos h2] at hf
        simp only [Option.some.injEq] at hf
        subst hf
        have hx2 := (List.mem_filter.mp hx).1
        rcases List.mem_map.mp hx2 with ⟨part, hpart, hxe⟩
        subst hxe
        exact clean_text_no_nl g
          (mem_splitFIF _ none _ part nlc hpart (pystrip_subset part hmem))
      · rw [if_neg h2] at hf; simp at hf
    · rw [if_neg h1] at hf; simp at hf

/-- Joining at most `k` newline-free parts and splitting on newlines
yields at most `k` parts (with the empty string counting as one). -/
theorem split_join_le (fns : List Str) (k : Nat) (hk : 0 < k)
    (hnl : ∀ x ∈ fns, nlc ∉ x) :
    (pysplit nlc (if fns = [] then [] else List.intercalate [nlc] (fns.take k))).length ≤ k := by
  by_cases h : fns = []
  · rw [if_pos h]
    simpa [pysplit] using hk
  · rw [if_neg h]
    have htake : fns.take k ≠ [] := by
      cases fns with
      | nil => exact absurd rfl h
      | cons a t =>
        cases k with
        | zero => omega
        | succ k1 => simp
    have hparts : ∀ x ∈ fns.take k, nlc ∉ x := fun x hx => hnl x (List.take_subset k fns hx)
    rw [pysplit_length, count_intercalate nlc _ htake hparts]
    have h1 := List.length_take_le k fns
    have h2 : 1 ≤ (fns.take k).length := List.length_pos.mpr htake
    omega

end JDX

namespace JDX

/-- C10: for every input description, the Essential Functions value
returned by extraction contains at most 15 newline-separated items —
`extract_essential_functions` joins only `functions[:15]`, silently
discarding any further matched items; an empty result counts as the
single empty item. -/
theorem essential_functions_capped_at_15 (jd : Str) :
    (pysplit nlc (extract_essential_functions jd)).length ≤ 15 := by
  have hfn : ∀ x ∈ (match efSectionItems (fix_encoding_issues jd) with
      | some fs => fs
      | none => efFallback false (pysplit nlc (fix_encoding_issues jd))), nlc ∉ x := by
    intro x hx
    cases hs : efSectionItems (fix_encoding_issues jd) with
    | some fs =>
      rw [hs] at hx
      replace hx : x ∈ fs := hx
      exact efSectionItems_no_nl hs x hx
    | none =>
      rw [hs] at hx
      replace hx : x ∈ efFallback false (pysplit nlc (fix_encoding_issues jd)) := hx
      exact efFallback_no_nl false _ x hx
  exact split_join_le _ 15 (by omega) hfn

end JDX

namespace JDX

/-- The batch loop is a filter-then-map: rows with both fields blank are
skipped, every other row yields its record. -/
theorem transform_data_filters (rows : List (Str × Str)) :
    transform_data rows =
      (rows.filter (fun r => decide (¬ (pystrip r.1 = [] ∧ pystrip r.2 = [])))).map
        (fun r => process_single_job r.1 r.2) := by
  induction rows with
  | nil => rfl
  | cons r rest IH =>
    cases r with
    | mk t d =>
      rw [transform_data]
      by_cases h : pystrip t = [] ∧ pystrip d = []
      · rw [if_pos h, IH, List.filter_cons,
            if_neg (show ¬ ((decide (¬ (pystrip t = [] ∧ pystrip d = []))) = true) by simp [h])]
      · rw [if_neg h, IH, List.filter_cons,
            if_pos (show (decide (¬ (pystrip t = [] ∧ pystrip d = []))) = true by simp only [decide_eq_true_eq]; exact h)]
        rfl

/-- C1 (amended): the batch loop emits exactly one record per input row
except rows whose stripped title and stripped description are both
empty, which are skipped; the output is `process_single_job` mapped over
the surviving rows in order, so its length is the number of surviving
rows, not the full input length. -/
theorem transform_data_count_amended (rows : List (Str × Str)) :
    transform_data rows =
      (rows.filter (fun r => decide (¬ (pystrip r.1 = [] ∧ pystrip r.2 = [])))).map
        (fun r => process_single_job r.1 r.2) ∧
    (transform_data rows).length =
      (rows.filter (fun r => decide (¬ (pystrip r.1 = [] ∧ pystrip r.2 = [])))).length := by
  refine ⟨transform_data_filters rows, ?_⟩
  rw [transform_data_filters rows]
  exact List.length_map _ _

/-- C1 (counterexample): a batch consisting of one row with empty title
and empty description produces an empty output, breaking
`len(processBatch(B)) == len(B)`. -/
theorem transform_data_count_cex :
    ¬ ((transform_data [(S (""), S (""))]).length = [(S (""), S (""))].length) := by
  decide

/-- C2: for every input title and description, the per-record extraction
returns a record with exactly the seven canonical keys, in order, each
paired with a (possibly empty) string value. -/
theorem process_single_job_keys (title desc : Str) :
    (process_single_job title desc).map Prod.fst =
      [S ("Job Description Name"), S ("Position Summary"), S ("Education"),
       S ("Work Experience"), S ("Essential Functions"),
       S ("Licenses and Certifications"), S ("Knowledge, Skills and Abilities")] := rfl

end JDX

namespace JDX

/-- C3 (counterexample): the normalizer is not idempotent — stripping
the letter marker of "a. b. hi" exposes a second letter marker that only
a second pass removes. -/
theorem clean_text_not_idempotent_cex :
    ¬ (clean_text (clean_text (S ("a. b. hi"))) = clean_text (S ("a. b. hi"))) := by
  decide

/-- C3 (amended): the normalizer is total with `normalize("") == ""`,
and a fixed point of a pass is preserved (in particular the empty
result); but it is not idempotent in general: one pass sends
"a. b. hi" to "b. hi", whose own pass strips the newly leading letter
marker and yields "hi". -/
theorem clean_text_amended (t : Str) (h : clean_text t = []) :
    clean_text (S ("")) = S ("") ∧
    clean_text (clean_text t) = clean_text t ∧
    clean_text (S ("a. b. hi")) = S ("b. hi") ∧
    clean_text (S ("b. hi")) = S ("hi") := by
  refine ⟨by decide, ?_, by decide, by decide⟩
  rw [h]
  decide

/-- C3 (witness): the amended statement applied at the empty string. -/
theorem clean_text_amended_witness :
    clean_text (S ("")) = S ("") ∧
    clean_text (clean_text (S (""))) = clean_text (S ("")) ∧
    clean_text (S ("a. b. hi")) = S ("b. hi") ∧
    clean_text (S ("b. hi")) = S ("hi") :=
  clean_text_amended (S ("")) (by decide)

/-- C4: in per-record assembly the Position Summary field equals the
inferred summary exactly when raw summary extraction is empty and the
essential-functions extraction is not (otherwise it is the raw
extraction), and a non-empty inferred summary always contains the
supplied job title verbatim as a substring. -/
theorem summary_inference_gate (title desc : Str) :
    (List.lookup (S ("Position Summary")) (process_single_job title desc) =
      some (if extract_position_summary desc = [] ∧ ¬ extract_essential_functions desc = []
            then infer_position_summary (extract_essential_functions desc) title
            else extract_position_summary desc)) ∧
    (∀ ef t2, infer_position_summary ef t2 ≠ [] →
        ∃ p q, infer_position_summary ef t2 = p ++ t2 ++ q) := by
  constructor
  · rfl
  · intro ef t2 hne
    unfold infer_position_summary at hne ⊢
    by_cases h0 : ef = [] ∨ t2 = []
    · rw [if_pos h0] at hne
      exact absurd rfl hne
    · rw [if_neg h0] at hne ⊢
      cases hkf : inferKeyFunctions ef with
      | nil =>
        rw [hkf] at hne
        exact absurd rfl hne
      | cons k1 t =>
        cases t with
        | nil =>
          exact ⟨S ("*The "), S (" is responsible for ") ++ k1 ++ [('.')],
            by simp [List.append_assoc]⟩
        | cons k2 t2b =>
          exact ⟨S ("*The "),
            S (" is responsible for ") ++ k1 ++ S (" and ") ++ k2 ++ [('.')],
            by simp [List.append_assoc]⟩

/-- C4 (witness): on a concrete posting whose summary extraction is
empty and whose essential functions are non-empty, the record's summary
is the inferred one. -/
theorem summary_inference_gate_witness :
    List.lookup (S ("Position Summary")) (process_single_job (S ("Manager")) exDescDuties) =
      some (infer_position_summary (extract_essential_functions exDescDuties) (S ("Manager"))) := by
  have h := (summary_inference_gate (S ("Manager")) exDescDuties).1
  rw [if_pos (And.intro (by decide) (by decide))] at h
  exact h

end JDX

namespace JDX

/-- C5 (counterexample): on the specification's example description the
code returns neither the promised Position Summary (the 28-character
match fails the >30 substantiveness check and the header-led fallback
paragraph is rejected) nor the promised Education value (the trailing
period is retained). -/
theorem example_scenario1_cex :
    ¬ (extract_position_summary exDesc1 = S ("Leads the front office team") ∧
       extract_education exDesc1 = S ("Bachelor") ++ [apos] ++ S ("s degree required")) := by
  decide

/-- C5 (amended): on the example description, Position Summary extraction
returns the empty string and Education extraction returns the sentence
with its trailing period. -/
theorem example_scenario1_amended :
    extract_position_summary exDesc1 = [] ∧
    extract_education exDesc1 = S ("Bachelor") ++ [apos] ++ S ("s degree required.") :=
  ⟨by decide, by decide⟩

/-- C6 (counterexample): invoked on the non-empty essential-functions
text "Files papers" and the non-empty title "Clerk", where no line
exceeds the 20-character threshold, the inferencer returns the empty
string — not a generic fallback sentence. -/
theorem infer_no_fallback_cex :
    infer_position_summary (S ("Files papers")) (S ("Clerk")) = [] := by
  decide

/-- C6 (amended): when no line-level item of the (non-empty)
essential-functions text exceeds the 20-character threshold, the
inferencer returns the empty string; there is no generic fallback
sentence. -/
theorem infer_no_qualifying_amended (ef title : Str) (h1 : ef ≠ []) (h2 : title ≠ [])
    (h : ∀ l ∈ (pysplit nlc ef).take 3, (pystrip l).length ≤ 20) :
    infer_position_summary ef title = [] := by
  have hkf : inferKeyFunctions ef = [] := by
    apply List.filterMap_eq_nil_iff.mpr
    intro l hl
    have hlen := h l hl
    show (if pystrip l ≠ [] ∧ (pystrip l).length > 20
        then some (if pyendswith ('.') (pylower (pystrip l))
          then (pylower (pystrip l)).dropLast else pylower (pystrip l))
        else none) = none
    exact if_neg (fun hc => absurd hc.2 (by omega))
  unfold infer_position_summary
  rw [if_neg (fun hc => hc.elim h1 h2), hkf]

/-- C6 (witness): the amended statement applied to the concrete
essential-functions text "Files papers" and title "Clerk". -/
theorem infer_no_qualifying_witness :
    infer_position_summary (S ("Files papers")) (S ("Clerk")) = [] :=
  infer_no_qualifying_amended (S ("Files papers")) (S ("Clerk"))
    (by decide) (by decide) (by decide)

/-- C7 (counterexample): stripping is not limited to one marker per
line — "- 1. hello" loses both the dash and the exposed number marker in
a single pass, instead of becoming "1. hello". -/
theorem bullets_single_marker_cex :
    ¬ (remove_leading_bullets_and_numbers (S ("- 1. hello")) = S ("1. hello")) := by
  decide

/-- C7 (amended): each of the five marker rules is applied once per line
in fixed order (glyph, number, letter, parenthesized, roman), so a
marker exposed by an earlier rule is also stripped when it belongs to a
later rule ("- 1. hello" becomes "hello"), while one of the same rule
survives the pass ("1. 2. x" becomes "2. x"); lines that become empty
are dropped, so every emitted line is nonempty. -/
theorem bullets_amended (s l : Str)
    (hne : remove_leading_bullets_and_numbers s ≠ [])
    (hl : l ∈ pysplit nlc (remove_leading_bullets_and_numbers s)) :
    l ≠ [] ∧
    remove_leading_bullets_and_numbers (S ("- 1. hello")) = S ("hello") ∧
    remove_leading_bullets_and_numbers (S ("1. 2. x")) = S ("2. x") := by
  refine ⟨?_, by decide, by decide⟩
  by_cases hs : s = []
  · rw [hs] at hne
    exact absurd (by decide) hne
  · have hru : remove_leading_bullets_and_numbers s =
        List.intercalate [nlc] ((pysplit nlc s).filterMap cleanLine) := by
      unfold remove_leading_bullets_and_numbers
      rw [if_neg hs]
    have hne2 : (pysplit nlc s).filterMap cleanLine ≠ [] := by
      intro hp
      rw [hru, hp] at hne
      simp [List.intercalate] at hne
    rw [hru, pysplit_intercalate hne2
      (fun x hx => (mem_filterMap_cleanLine hx).2)] at hl
    exact (mem_filterMap_cleanLine hl).1

/-- C7 (witness): the amended statement applied to the one-line input
"a". -/
theorem bullets_amended_witness :
    S ("a") ≠ [] ∧
    remove_leading_bullets_and_numbers (S ("- 1. hello")) = S ("hello") ∧
    remove_leading_bullets_and_numbers (S ("1. 2. x")) = S ("2. x") :=
  bullets_amended (S ("a")) (S ("a")) (by decide) (by decide)

/-- C8 (counterexample): the substitution table is not applied
longest-first — the two-character key 'â€' precedes the mangled bullet
'â€¢' it is a prefix of, so the bullet is corrupted to '"¢' instead of
being repaired to '•'. -/
theorem encoding_order_cex :
    ¬ (fix_encoding_issues mangledBullet = [Char.ofNat 0x2022]) := by
  decide

/-- C8 (amended): replacements run in the table's insertion order, which
lists the mangled apostrophe 'â€™' before its prefix 'â€' (so
"Teacherâ€™s" is repaired), but lists 'â€' before the mangled bullet and
before the 3-stage-mangled apostrophe sequence, so both of those are
partially corrupted rather than repaired. -/
theorem encoding_order_amended :
    fix_encoding_issues (S ("Teacher") ++ mangledApos1 ++ S ("s")) =
      S ("Teacher") ++ [apos] ++ S ("s") ∧
    fix_encoding_issues mangledBullet = [dq, Char.ofNat 0xa2] ∧
    ¬ (fix_encoding_issues mangledApos3 = [apos]) :=
  ⟨by decide, by decide, by decide⟩

/-- C9 (counterexample): a non-empty extracted Education value can
contain the verbatim "EXPERIENCE:" header of a later section together
with that section's content, when the header does not start a line —
the inline degree pattern swallows it. -/
theorem boundary_respect_cex :
    extract_education exDescLeak ≠ [] ∧
    containsSub (S ("EXPERIENCE:")) (extract_education exDescLeak) = true :=
  ⟨by decide, by decide⟩

/-- C9 (amended): boundary respect holds for line-initial headers: when
"EXPERIENCE:" starts a new line, the education section capture stops
before it and the extracted value does not contain it. -/
theorem boundary_respect_amended :
    extract_education exDescBoundary = S ("Bachelor degree required") ∧
    containsSub (S ("EXPERIENCE:")) (extract_education exDescBoundary) = false :=
  ⟨by decide, by decide⟩

end JDX
